import Mathlib

/-!
# Verification of the AWSS3UploadManager resumable-upload core

Shallow embedding of `AWSS3UploadManager` (the manager deciding resume vs.
fresh multipart upload, its session cache, purge sweep, and task
reconstruction) together with the properties claimed of it.

Modelling conventions:
* `localStorage` holding the single JSON record under `__uploadInProgress` is
  an `Option SMap` — `none` models `getItem` returning `null`; an `SMap` is the
  parsed object, an association list with JS-object key semantics (at most one
  binding per key in every state the manager produces).
* JSON-roundtripping (`JSON.parse ∘ JSON.stringify`) is the identity at this
  abstraction level.
* `hasOwnProperty` checks on `lastTouched` / `timeStarted` / `UploadId` /
  `Parts` are modelled by `Option` fields: `none` = property absent.
* `Date.now()` is a `now : Nat` parameter (Unix ms).  JS `Date.now() - t > ttl`
  on signed numbers agrees with truncated `Nat` subtraction: whenever `t > now`
  the JS difference is negative, hence not `> ttl`, and the `Nat` difference is
  `0`, also not `> ttl`.
* The S3 client is an oracle record of the three remote calls the manager
  issues; each call may fail (`none` / `false`) to model a rejected promise.
* Promise scheduling is modelled faithfully to the JS event loop: in
  `_purgeExpiredKeys` the synchronous loop issues the abort commands and then
  runs `setItem` *before* any `.then` callback can run, so the persisted map is
  written prior to every deletion; the deletions land on the local object only
  (`memFinal` below), which is never persisted.
-/

/-- A JS upload source. `File` carries a name and last-modified stamp and is
also an `instanceof Blob`; a plain `Blob` has bytes and a MIME type only;
`other` is any non-Blob value. `size` in JS is the byte length of the
content, which we carry explicitly so that content-independence of the
fingerprint is a real statement. -/
inductive Source where
  | file (name : String) (lastModified : Int) (content : List Nat) (type : String)
  | blob (content : List Nat) (type : String)
  | other
deriving Repr, DecidableEq

namespace Source

/-- `x instanceof File`. -/
def isFile : Source → Bool
  | .file _ _ _ _ => true
  | _ => false

/-- `x instanceof Blob` — a `File` is also a `Blob`. -/
def isBlob : Source → Bool
  | .file _ _ _ _ => true
  | .blob _ _ => true
  | .other => false

/-- `blob.size`: byte length of the content. -/
def size : Source → Nat
  | .file _ _ c _ => c.length
  | .blob c _ => c.length
  | .other => 0

/-- `blob.type`. -/
def typeStr : Source → String
  | .file _ _ _ t => t
  | .blob _ t => t
  | .other => ""

/-- `file.name`, `undefined` (here `none`) for anonymous blobs. -/
def name? : Source → Option String
  | .file n _ _ _ => some n
  | _ => none

end Source

/-- `AWSS3UploadManager._getFileKey`: the fingerprint.  For a `File` it joins
`[name, lastModified, size, type, bucket, key]` with `-`; for a plain `Blob`
it joins `[size, type, bucket, key]`; for anything else it returns `''`.
The `isFile` branch is checked first because a `File` is also a `Blob`. -/
def getFileKey (blob : Source) (bucket key : String) : String :=
  if blob.isFile then
    match blob with
    | .file name lm c ty =>
        String.intercalate "-" [name, toString lm, toString c.length, ty, bucket, key]
    | _ => ""
  else if blob.isBlob then
    match blob with
    | .blob c ty => String.intercalate "-" [toString c.length, ty, bucket, key]
    | _ => ""
  else ""

/-- The `FileMetadata` session record persisted under a fingerprint.
`fileName` is written only for named files (conditional spread in
`_initMultiupload`); `lastTouched` and `timeStarted` are `Option` so that the
`hasOwnProperty` guards in `_getCachedUploadParts` / `_purgeExpiredKeys` are
expressible. -/
structure FileMetadata where
  accessLevel : String
  bucket : String
  fileName : Option String
  key : String
  lastTouched : Option Nat
  timeStarted : Option Nat
  uploadId : String
deriving Repr, DecidableEq

/-- JS object property assignment `o[k] = v` on an association list: replace
in place when the key exists, append otherwise. -/
def jsAssign {β : Type} (m : List (String × β)) (k : String) (v : β) :
    List (String × β) :=
  if (List.lookup k m).isSome then
    List.map (fun p => if p.1 = k then (k, v) else p) m
  else
    m ++ [(k, v)]

/-- The parsed session map: the JS object stored under `__uploadInProgress`. -/
abbrev SMap := List (String × FileMetadata)

namespace SMap

/-- `uploads[k]` / `uploads.hasOwnProperty(k)`. -/
def get? (m : SMap) (k : String) : Option FileMetadata :=
  List.lookup k m

/-- `uploads[k] = v`. -/
def set (m : SMap) (k : String) (v : FileMetadata) : SMap :=
  jsAssign m k v

/-- `delete uploads[k]`. -/
def erase (m : SMap) (k : String) : SMap :=
  List.filter (fun p => p.1 ≠ k) m

/-- `Object.values(uploads)`. -/
def values (m : SMap) : List FileMetadata :=
  List.map Prod.snd m

/-- `Object.entries(uploads)`. -/
def entries (m : SMap) : List (String × FileMetadata) := m

end SMap

/-- One entry of a `ListPartsCommandOutput.Parts` listing. -/
structure S3Part where
  partNumber : Nat
  eTag : String
  size : Nat
deriving Repr, DecidableEq

/-- The object `addTask` ends up holding in `cachedUpload`: either a
`ListPartsCommandOutput`-shaped value or a plain `{}`.  Field presence (what
`hasOwnProperty` sees) is `Option.isSome`. -/
structure ListPartsValue where
  uploadIdField : Option String
  partsField : Option (List S3Part)
deriving Repr, DecidableEq

/-- The `{}` that `addTask` substitutes for `null`/`undefined`/thrown lookups. -/
def emptyObject : ListPartsValue := ⟨none, none⟩

/-- `AWSS3UploadManager._isListPartsOutput`: truthy object with both an
`UploadId` and a `Parts` property. -/
def isListPartsOutput (x : ListPartsValue) : Bool :=
  x.uploadIdField.isSome && x.partsField.isSome

/-- `oneHourInMs`. -/
def oneHourInMs : Nat := 1000 * 60 * 60

example : isListPartsOutput emptyObject = false := by decide
example : getFileKey (.blob [1, 2] "text/plain") "b" "k" = "2-text/plain-b-k" := by decide
example : getFileKey (.file "a.txt" 7 [1, 2] "text/plain") "b" "k"
    = "a.txt-7-2-text/plain-b-k" := by decide

/-- The S3 client as an oracle over the three commands the manager sends.
A `none` result (resp. `false` for abort) models a rejected promise. -/
structure S3ClientModel where
  listParts : String → String → String → Option ListPartsValue
  createMultipartUpload : String → String → Option String
  abortMultipartUpload : String → String → String → Bool

/-- Result of `_purgeExpiredKeys`.  Per the JS event loop, the whole
synchronous body — including the final `setItem` — runs before any of the
abort promises' `.then` callbacks; those callbacks `delete` keys of the local
`uploads` object, which is never written back.  `storage` is what `setItem`
persisted; `memFinal` is the local object after every `.then` has run. -/
structure PurgeResult where
  storage : Option SMap
  abortsRequested : List (String × String × String)
  memFinal : SMap
deriving Repr, DecidableEq

/-- `Object.prototype.hasOwnProperty.call(upload, 'timeStarted') &&
Date.now() - upload.timeStarted > ttl`. -/
def timeStartedExpired (now ttl : Nat) (e : FileMetadata) : Bool :=
  match e.timeStarted with
  | some t => decide (now - t > ttl)
  | none => false

/-- `AWSS3UploadManager._purgeExpiredKeys`: parse the stored map (`{}` when
absent), send an `AbortMultipartUploadCommand` for every entry whose
`timeStarted` is more than `ttl` in the past, then persist the map.  The
`delete uploads[k]` inside each abort's `.then` runs only after `setItem`
and only mutates the dead local object. -/
def purgeExpiredKeys (s3 : S3ClientModel) (now ttl : Nat) (storage : Option SMap) :
    PurgeResult :=
  let uploads : SMap := storage.getD []
  let aborts := (uploads.filter fun p => timeStartedExpired now ttl p.2).map
    fun p => (p.2.bucket, p.2.key, p.2.uploadId)
  let memFinal := uploads.filter fun p =>
    !(timeStartedExpired now ttl p.2 && s3.abortMultipartUpload p.2.bucket p.2.key p.2.uploadId)
  ⟨some uploads, aborts, memFinal⟩

/-- `cachedUploadFileData.hasOwnProperty('lastTouched') &&
Date.now() - cachedUploadFileData.lastTouched > oneHourInMs`. -/
def lastTouchedExpired (now : Nat) (e : FileMetadata) : Bool :=
  match e.lastTouched with
  | some t => decide (now - t > oneHourInMs)
  | none => false

/-- What `_getCachedUploadParts` resolves to: a thrown `s3client.send`, a
`null`/`undefined` resolution, or a `ListPartsCommandOutput`. -/
inductive CachedOutcome where
  | threw
  | nullish
  | output (v : ListPartsValue)
deriving Repr, DecidableEq

/-- Result of `_getCachedUploadParts`: the storage after its (possible)
`setItem`, the `ListPartsCommand` sends it issued, and its resolution. -/
structure CachedPartsResult where
  storage : Option SMap
  listPartsCalls : List (String × String × String)
  outcome : CachedOutcome
deriving Repr, DecidableEq

/-- `AWSS3UploadManager._getCachedUploadParts`.  Returns `null` when the
stored record is absent or the fingerprint has no entry; when the entry's
`lastTouched` marks it expired the function falls off the end (`undefined`).
Otherwise it stamps `lastTouched = Date.now()`, persists the whole map, and
only then sends `ListPartsCommand` with the cached `uploadId`. -/
def getCachedUploadParts (s3 : S3ClientModel) (now : Nat) (storage : Option SMap)
    (bucket key : String) (file : Source) : CachedPartsResult :=
  match storage with
  | none => ⟨none, [], .nullish⟩
  | some uploads =>
    let fileKey := getFileKey file bucket key
    match SMap.get? uploads fileKey with
    | none => ⟨some uploads, [], .nullish⟩
    | some entry =>
      if lastTouchedExpired now entry then
        ⟨some uploads, [], .nullish⟩
      else
        let uploads' := SMap.set uploads fileKey { entry with lastTouched := some now }
        match s3.listParts bucket key entry.uploadId with
        | none => ⟨some uploads', [(bucket, key, entry.uploadId)], .threw⟩
        | some out => ⟨some uploads', [(bucket, key, entry.uploadId)], .output out⟩

/-- `AWSS3UploadManager._removeKey`: parse (`{}` when absent), delete the
binding, persist. -/
def removeKeyOp (storage : Option SMap) (k : String) : Option SMap :=
  some (SMap.erase (storage.getD []) k)

/-- `AWSS3UploadManager._addKey`: parse (`{}` when absent), assign, persist. -/
def addKeyOp (storage : Option SMap) (k : String) (v : FileMetadata) : Option SMap :=
  some (SMap.set (storage.getD []) k v)

/-- The argument record of the `AWSS3UploadTask` constructor, as far as the
manager populates it (the task class itself is outside this excerpt). -/
structure TaskRecord where
  uploadId : String
  bucket : String
  key : String
  file : Source
  completedParts : List S3Part
deriving Repr, DecidableEq

/-- The effect of an emitter subscription the manager registers: both the
`UPLOAD_COMPLETE` and the `ABORT` handler close over a fingerprint and call
`_removeKey` on it. -/
inductive HandlerAction where
  | removeKey (k : String)
deriving Repr, DecidableEq

/-- The three members of the `TaskEvents` enum. -/
inductive TaskEvents where
  | abort
  | uploadComplete
  | uploadProgress
deriving Repr, DecidableEq

/-- Run a subscribed handler against the persisted storage. -/
def runHandler : HandlerAction → Option SMap → Option SMap
  | .removeKey k, st => removeKeyOp st k

/-- The `AddTaskInput` fields the model needs (`s3Client` and `emitter` are
passed separately / represented by `handlers`). -/
structure AddTaskInput where
  accessLevel : String
  file : Source
  bucket : String
  key : String
deriving Repr, DecidableEq

/-- Mutable manager state: the persisted session record, the IndexedDB
`files` object store (keyed by `name`), and the in-memory task registry
keyed by uploadId. -/
structure ManagerState where
  sessions : Option SMap
  content : List (String × Source)
  tasks : List (String × TaskRecord)
deriving Repr, DecidableEq

/-- Everything observable about one `addTask` call. -/
structure AddTaskResult where
  task : TaskRecord
  sessions : Option SMap
  content : List (String × Source)
  tasks : List (String × TaskRecord)
  handlers : List (TaskEvents × HandlerAction)
  abortsRequested : List (String × String × String)
  listPartsCalls : List (String × String × String)
deriving Repr, DecidableEq

/-- `registry[uploadId] = task`. -/
def setTask (reg : List (String × TaskRecord)) (uploadId : String) (t : TaskRecord) :
    List (String × TaskRecord) :=
  jsAssign reg uploadId t

/-- IndexedDB `put` on the `files` store (keyPath `name`, overwrite
semantics).  An anonymous blob has no `name`; storing it cannot key it, so
the store is left unchanged in the model. -/
def storeToIDB (content : List (String × Source)) (f : Source) : List (String × Source) :=
  match f.name? with
  | some n => jsAssign content n f
  | none => content

/-- `AWSS3UploadManager._initMultiupload`: look the file up in IndexedDB by
name (an anonymous blob's `name` is `undefined`, matching nothing), store it
there when absent, send `CreateMultipartUploadCommand`, build a fresh task
with no completed parts, register it under the new uploadId, and persist a
new `FileMetadata` under the fingerprint with `timeStarted` and
`lastTouched` both `Date.now()` (`fileName` only for named files).  `none`
models the create command rejecting, which rejects `addTask` itself. -/
def initMultiupload (s3 : S3ClientModel) (now : Nat) (sessions : Option SMap)
    (content : List (String × Source)) (reg : List (String × TaskRecord))
    (input : AddTaskInput) : Option (TaskRecord × Option SMap × List (String × Source) ×
      List (String × TaskRecord)) :=
  let found := input.file.name?.bind fun n => List.lookup n content
  let f := found.getD input.file
  let content' := if found.isSome then content else storeToIDB content input.file
  let fileKey := getFileKey input.file input.bucket input.key
  match s3.createMultipartUpload input.bucket input.key with
  | none => none
  | some uploadId =>
    let newTask : TaskRecord := ⟨uploadId, input.bucket, input.key, f, []⟩
    let meta : FileMetadata :=
      { uploadId := uploadId
        timeStarted := some now
        lastTouched := some now
        bucket := input.bucket
        key := input.key
        accessLevel := input.accessLevel
        fileName := if f.isFile then f.name? else none }
    some (newTask, addKeyOp sessions fileKey meta, content', setTask reg uploadId newTask)

/-- `AWSS3UploadManager.addTask`: purge (default ttl), attempt the cached
lookup with a thrown `listParts` caught and treated as `{}`, subscribe the
`UPLOAD_COMPLETE` and `ABORT` handlers to `_removeKey(fileKey)`, and either
reuse the cached upload (registering the task under the listing's
`UploadId`, seeded with its `Parts`) or fall back to `_initMultiupload`. -/
def addTask (s3 : S3ClientModel) (now : Nat) (st : ManagerState) (input : AddTaskInput) :
    Option AddTaskResult :=
  let pr := purgeExpiredKeys s3 now oneHourInMs st.sessions
  let cp := getCachedUploadParts s3 now pr.storage input.bucket input.key input.file
  let cachedUpload : ListPartsValue :=
    match cp.outcome with
    | .threw => emptyObject
    | .nullish => emptyObject
    | .output v => v
  let fileKey := getFileKey input.file input.bucket input.key
  let handlers : List (TaskEvents × HandlerAction) :=
    [(.uploadComplete, .removeKey fileKey), (.abort, .removeKey fileKey)]
  if isListPartsOutput cachedUpload then
    let uploadId := cachedUpload.uploadIdField.getD ""
    let parts := cachedUpload.partsField.getD []
    let task : TaskRecord := ⟨uploadId, input.bucket, input.key, input.file, parts⟩
    some ⟨task, cp.storage, st.content, setTask st.tasks uploadId task, handlers,
      pr.abortsRequested, cp.listPartsCalls⟩
  else
    match initMultiupload s3 now cp.storage st.content st.tasks input with
    | none => none
    | some (task, sessions', content', reg') =>
      some ⟨task, sessions', content', reg', handlers, pr.abortsRequested, cp.listPartsCalls⟩

/-- `AWSS3UploadManager.createTask` just delegates to `addTask`. -/
def createTask (s3 : S3ClientModel) (now : Nat) (st : ManagerState)
    (input : AddTaskInput) : Option AddTaskResult :=
  addTask s3 now st input

/-- A task as `listTasks` reconstructs it: when no session entry matches the
blob, the spread of `undefined` leaves `bucket`, `key` and `uploadId`
`undefined` in the constructor argument. -/
structure ReconTask where
  bucket : Option String
  key : Option String
  uploadId : Option String
  file : Source
deriving Repr, DecidableEq

/-- `AWSS3UploadManager.listTasks`: return `null` when no session record is
stored; otherwise map over every IndexedDB blob, joining it with the first
session entry whose `fileName` strictly equals the blob's `name`, and build
one `AWSS3UploadTask` per blob — with `undefined` fields when no entry
matched. -/
def listTasks (storage : Option SMap) (files : List Source) :
    Option (List ReconTask) :=
  match storage with
  | none => none
  | some uploads =>
    some (files.map fun f =>
      match (SMap.values uploads).find? (fun u => u.fileName == f.name?) with
      | some u => ⟨some u.bucket, some u.key, some u.uploadId, f⟩
      | none => ⟨none, none, none, f⟩)

/-! ### Association-list helper lemmas -/

theorem lookup_map_update {β : Type} (m : List (String × β)) (k : String) (v : β)
    (h : (List.lookup k m).isSome = true) :
    List.lookup k (List.map (fun p => if p.1 = k then (k, v) else p) m) = some v := by
  induction m with
  | nil => simp at h
  | cons p t ih =>
    obtain ⟨a, b⟩ := p
    by_cases hk : a = k
    · subst hk
      simp [List.lookup_cons]
    · have hne : (k == a) = false := by simp [Ne.symm hk]
      simp only [List.lookup_cons, hne] at h
      simp only [List.map_cons, hk, if_false, List.lookup_cons, hne]
      exact ih (by simpa using h)

theorem lookup_append_single {β : Type} (m : List (String × β)) (k : String) (v : β)
    (h : List.lookup k m = none) :
    List.lookup k (m ++ [(k, v)]) = some v := by
  induction m with
  | nil => simp [List.lookup_cons]
  | cons p t ih =>
    obtain ⟨a, b⟩ := p
    by_cases hk : a = k
    · subst hk
      simp [List.lookup_cons] at h
    · have hne : (k == a) = false := by simp [Ne.symm hk]
      rw [List.lookup_cons, hne] at h
      rw [List.cons_append, List.lookup_cons, hne]
      exact ih h

theorem lookup_jsAssign_self {β : Type} (m : List (String × β)) (k : String) (v : β) :
    List.lookup k (jsAssign m k v) = some v := by
  unfold jsAssign
  by_cases h : (List.lookup k m).isSome
  · simpa [h] using lookup_map_update m k v h
  · rw [Option.not_isSome_iff_eq_none] at h
    simpa [h] using lookup_append_single m k v h

theorem lookup_filter_ne {β : Type} (m : List (String × β)) (k : String) :
    List.lookup k (m.filter fun p => p.1 ≠ k) = none := by
  induction m with
  | nil => rfl
  | cons p t ih =>
    obtain ⟨a, b⟩ := p
    by_cases hk : a = k
    · simpa [List.filter_cons, hk] using ih
    · have hne : (k == a) = false := by simp [Ne.symm hk]
      rw [List.filter_cons]
      simpa [hk, List.lookup_cons, hne] using ih

theorem mem_of_lookup_eq_some {β : Type} {m : List (String × β)} {k : String} {v : β}
    (h : List.lookup k m = some v) : (k, v) ∈ m := by
  induction m with
  | nil => simp at h
  | cons p t ih =>
    obtain ⟨a, b⟩ := p
    by_cases hk : a = k
    · subst hk
      rw [List.lookup_cons] at h
      obtain rfl : b = v := by simpa using h
      exact List.mem_cons_self _ _
    · have hne : (k == a) = false := by simp [Ne.symm hk]
      rw [List.lookup_cons, hne] at h
      exact List.mem_cons_of_mem _ (ih h)

/-- Modelled from the spec: the part scheduler of `AWSS3UploadTask` (file
`AWSS3UploadTask.ts` is imported by the manager but absent from this
excerpt).  Per spec §4.4 the task "partition[s] the file's remaining byte
ranges into fixed-size parts, excluding ranges already covered by pre-seeded
completed parts": with parts numbered from 1, it schedules exactly the part
numbers of the partition not present in `completedParts`. -/
def TaskRecord.partsToUpload (t : TaskRecord) (partSize : Nat) : List Nat :=
  (((List.range ((t.file.size + partSize - 1) / partSize)).map (· + 1)).filter
    fun n => !(t.completedParts.any fun p => p.partNumber == n))


/-! ### Concrete fixtures for witnesses and counterexamples -/

/-- A 2-byte named file. -/
def fileA : Source := .file "a.txt" 0 [0, 1] "text/plain"

/-- Its fingerprint for bucket `b`, key `k`. -/
def fkA : String := getFileKey fileA "b" "k"

def partA : S3Part := ⟨1, "etag1", 5⟩

/-- Oracle whose `listParts` knows `uid-stale`, whose create returns
`uid-new`, and whose aborts all resolve. -/
def s3Resume : S3ClientModel where
  listParts := fun _ _ uid =>
    if uid = "uid-stale" then some ⟨some "uid-stale", some [partA]⟩ else none
  createMultipartUpload := fun _ _ => some "uid-new"
  abortMultipartUpload := fun _ _ _ => true

/-- Session entry whose `timeStarted` is stale (2 h before "now" below) but
whose `lastTouched` is current. -/
def eStale : FileMetadata :=
  { accessLevel := "private", bucket := "b", fileName := some "a.txt", key := "k"
    lastTouched := some (2 * oneHourInMs), timeStarted := some 0
    uploadId := "uid-stale" }

example : fkA = "a.txt-0-2-text/plain-b-k" := by decide

example :
    (addTask s3Resume (2 * oneHourInMs) ⟨some [(fkA, eStale)], [], []⟩
        ⟨"private", fileA, "b", "k"⟩).map
      (fun r => (r.task.uploadId, r.task.completedParts, r.listPartsCalls, r.abortsRequested))
      = some ("uid-stale", [partA], [("b", "k", "uid-stale")], [("b", "k", "uid-stale")]) := by
  rfl

/-! ### Stepping lemmas for the manager pipeline -/

theorem purge_storage_eq (s3 : S3ClientModel) (now ttl : Nat) (m : SMap) :
    (purgeExpiredKeys s3 now ttl (some m)).storage = some m := rfl

theorem getCached_hit_output (s3 : S3ClientModel) (now : Nat) (m : SMap)
    (bucket key : String) (file : Source) (e : FileMetadata) (out : ListPartsValue)
    (he : SMap.get? m (getFileKey file bucket key) = some e)
    (hfresh : lastTouchedExpired now e = false)
    (hlp : s3.listParts bucket key e.uploadId = some out) :
    getCachedUploadParts s3 now (some m) bucket key file =
      ⟨some (SMap.set m (getFileKey file bucket key) { e with lastTouched := some now }),
       [(bucket, key, e.uploadId)], .output out⟩ := by
  simp [getCachedUploadParts, he, hfresh, hlp]

theorem getCached_hit_threw (s3 : S3ClientModel) (now : Nat) (m : SMap)
    (bucket key : String) (file : Source) (e : FileMetadata)
    (he : SMap.get? m (getFileKey file bucket key) = some e)
    (hfresh : lastTouchedExpired now e = false)
    (hlp : s3.listParts bucket key e.uploadId = none) :
    getCachedUploadParts s3 now (some m) bucket key file =
      ⟨some (SMap.set m (getFileKey file bucket key) { e with lastTouched := some now }),
       [(bucket, key, e.uploadId)], .threw⟩ := by
  simp [getCachedUploadParts, he, hfresh, hlp]

theorem getCached_stale (s3 : S3ClientModel) (now : Nat) (m : SMap)
    (bucket key : String) (file : Source) (e : FileMetadata)
    (he : SMap.get? m (getFileKey file bucket key) = some e)
    (hstale : lastTouchedExpired now e = true) :
    getCachedUploadParts s3 now (some m) bucket key file = ⟨some m, [], .nullish⟩ := by
  simp [getCachedUploadParts, he, hstale]

theorem partsToUpload_not_mem (t : TaskRecord) (p : S3Part)
    (hp : p ∈ t.completedParts) (partSize : Nat) :
    p.partNumber ∉ t.partsToUpload partSize := by
  intro hmem
  unfold TaskRecord.partsToUpload at hmem
  rw [List.mem_filter] at hmem
  obtain ⟨-, hall⟩ := hmem
  simp only [Bool.not_eq_true', List.any_eq_false] at hall
  exact (by simpa using hall p hp)

/-! ### More fixtures -/

/-- Oracle whose `listParts` always rejects. -/
def s3Throw : S3ClientModel where
  listParts := fun _ _ _ => none
  createMultipartUpload := fun _ _ => some "uid-new"
  abortMultipartUpload := fun _ _ _ => true

/-- Oracle whose aborts succeed only for `uid-7s`. -/
def s3AbortMixed : S3ClientModel where
  listParts := fun _ _ _ => none
  createMultipartUpload := fun _ _ => some "uid-new"
  abortMultipartUpload := fun _ _ uid => uid == "uid-7s"

/-- Expired entry used for the C3 evaluation. -/
def eC3 : FileMetadata :=
  { accessLevel := "private", bucket := "b", fileName := some "c3.txt", key := "k"
    lastTouched := some 0, timeStarted := some 0, uploadId := "uid-c3" }

/-- Expired entry whose abort will fail. -/
def eC7fail : FileMetadata :=
  { accessLevel := "private", bucket := "b", fileName := some "c7a.txt", key := "k"
    lastTouched := some 0, timeStarted := some 0, uploadId := "uid-7f" }

/-- Expired entry whose abort will succeed. -/
def eC7ok : FileMetadata :=
  { accessLevel := "private", bucket := "b", fileName := some "c7b.txt", key := "k"
    lastTouched := some 0, timeStarted := some 0, uploadId := "uid-7s" }

/-- Unexpired entry (its `lastTouched` is exactly one hour before "now" in the
C9 counterexample, which the strict `>` does not count as expired). -/
def eC9 : FileMetadata :=
  { accessLevel := "private", bucket := "b", fileName := some "a.txt", key := "k"
    lastTouched := some oneHourInMs, timeStarted := some 0, uploadId := "uid-9" }

/-- **C5.** The fingerprint is a pure function of exactly the listed inputs:
for a named file it is the `-`-join of (name, last-modified, byte size,
content type, bucket, key); for an anonymous blob, of (byte size, content
type, bucket, key).  Two sources agreeing on those observables (even with
different bytes of the same length) get the identical fingerprint. -/
theorem c5_fingerprint_deterministic
    (name : String) (lm : Int) (c₁ c₂ : List Nat) (ty bucket key : String)
    (hlen : c₁.length = c₂.length) :
    getFileKey (.file name lm c₁ ty) bucket key
      = String.intercalate "-" [name, toString lm, toString c₁.length, ty, bucket, key] ∧
    getFileKey (.file name lm c₁ ty) bucket key
      = getFileKey (.file name lm c₂ ty) bucket key ∧
    getFileKey (.blob c₁ ty) bucket key
      = String.intercalate "-" [toString c₁.length, ty, bucket, key] ∧
    getFileKey (.blob c₁ ty) bucket key = getFileKey (.blob c₂ ty) bucket key := by
  refine ⟨rfl, ?_, rfl, ?_⟩ <;> simp [getFileKey, Source.isFile, Source.isBlob, hlen]

/-- Witness for C5 at concrete inputs: `[0, 1]` and `[5, 9]` have equal
length, and the fingerprints coincide and match the joined form. -/
theorem c5_witness :
    ([0, 1] : List Nat).length = ([5, 9] : List Nat).length ∧
    (getFileKey (.file "a.txt" 3 [0, 1] "t") "b" "k"
        = String.intercalate "-" ["a.txt", toString (3 : Int),
            toString ([0, 1] : List Nat).length, "t", "b", "k"] ∧
     getFileKey (.file "a.txt" 3 [0, 1] "t") "b" "k"
        = getFileKey (.file "a.txt" 3 [5, 9] "t") "b" "k" ∧
     getFileKey (.blob [0, 1] "t") "b" "k"
        = String.intercalate "-" [toString ([0, 1] : List Nat).length, "t", "b", "k"] ∧
     getFileKey (.blob [0, 1] "t") "b" "k" = getFileKey (.blob [5, 9] "t") "b" "k") :=
  ⟨by decide, c5_fingerprint_deterministic "a.txt" 3 [0, 1] [5, 9] "t" "b" "k" (by decide)⟩

/-- **C10.** Two anonymous blobs with equal byte size and equal content type
bound for the same bucket and key fingerprint identically — the content is
not consulted — so the second one's cache lookup keys straight to a session
entry stored under the first one's fingerprint. -/
theorem c10_anonymous_fingerprint_content_free
    (c₁ c₂ : List Nat) (ty bucket key : String) (e : FileMetadata) (m : SMap)
    (hlen : c₁.length = c₂.length) :
    getFileKey (.blob c₁ ty) bucket key = getFileKey (.blob c₂ ty) bucket key ∧
    SMap.get? (SMap.set m (getFileKey (.blob c₁ ty) bucket key) e)
      (getFileKey (.blob c₂ ty) bucket key) = some e := by
  have h : getFileKey (.blob c₂ ty) bucket key = getFileKey (.blob c₁ ty) bucket key := by
    simp [getFileKey, Source.isFile, Source.isBlob, hlen]
  refine ⟨h.symm, ?_⟩
  rw [h]
  simpa [SMap.get?, SMap.set] using lookup_jsAssign_self m (getFileKey (.blob c₁ ty) bucket key) e

/-- Witness for C10: contents `[0, 1]` and `[9, 9]` differ but have equal
length; the session stored under the first blob's fingerprint is found by
the second blob's lookup. -/
theorem c10_witness :
    ([0, 1] : List Nat).length = ([9, 9] : List Nat).length ∧
    (getFileKey (.blob [0, 1] "t") "b" "k" = getFileKey (.blob [9, 9] "t") "b" "k" ∧
     SMap.get? (SMap.set [] (getFileKey (.blob [0, 1] "t") "b" "k") eC3)
       (getFileKey (.blob [9, 9] "t") "b" "k") = some eC3) :=
  ⟨by decide, c10_anonymous_fingerprint_content_free [0, 1] [9, 9] "t" "b" "k" eC3 [] (by decide)⟩

/-- **C3** (code evaluated at the failing input).  One entry whose age
(2 h − 0) exceeds the ttl (1 h) and whose remote abort succeeds: after the
sweep the *persisted* map still contains the expired entry unchanged,
because `setItem` runs before the abort's `.then` callback and the deletion
(visible in `memFinal`) lands on the never-repersisted local object.  The
claim that the persisted map no longer contains any entry older than ttl is
therefore false, while the entry's abort was requested. -/
theorem c3_purge_does_not_persist_removal :
    timeStartedExpired (2 * oneHourInMs) oneHourInMs eC3 = true ∧
    purgeExpiredKeys s3Resume (2 * oneHourInMs) oneHourInMs (some [("c3key", eC3)])
      = ⟨some [("c3key", eC3)], [("b", "k", "uid-c3")], []⟩ :=
  ⟨rfl, rfl⟩

/-- **C7** (code evaluated at the failing input).  Two expired entries; the
abort for `uid-7f` rejects, the abort for `uid-7s` resolves.  The persisted
map keeps BOTH entries: the successfully aborted one is deleted only from
the dead in-memory object (`memFinal`), never from the persisted map, so
"the entry is removed from the persisted map after the abort succeeds" fails
— while the failed-abort entry indeed remains everywhere and the sweep
itself completes without propagating the failure. -/
theorem c7_abort_success_entry_still_persisted :
    purgeExpiredKeys s3AbortMixed (2 * oneHourInMs) oneHourInMs
        (some [("ka7", eC7fail), ("kb7", eC7ok)])
      = ⟨some [("ka7", eC7fail), ("kb7", eC7ok)],
         [("b", "k", "uid-7f"), ("b", "k", "uid-7s")],
         [("ka7", eC7fail)]⟩ :=
  rfl

/-- **C2** counterexample.  `eStale.timeStarted` is 2 h in the past with
ttl = 1 h (first conjunct), yet `createTask` issues `listParts` with that
session's uploadId and returns a task bound to it, because the reuse gate in
`_getCachedUploadParts` tests `lastTouched` (here current) rather than
`timeStarted`, and the purge step never removes the entry from the persisted
map. -/
theorem c2_counterexample :
    timeStartedExpired (2 * oneHourInMs) oneHourInMs eStale = true ∧
    (createTask s3Resume (2 * oneHourInMs) ⟨some [(fkA, eStale)], [], []⟩
        ⟨"private", fileA, "b", "k"⟩).map
      (fun r => (r.listPartsCalls, r.task.uploadId))
      = some ([("b", "k", "uid-stale")], "uid-stale") :=
  ⟨rfl, rfl⟩

/-- **C8** counterexample.  With an empty session map and one stored blob
there are zero matched (session, blob) pairs, yet `listTasks` constructs one
task for the unmatched blob (with `undefined` bucket/key/uploadId), because
it maps over the blobs and spreads a failed `find` as `undefined`. -/
theorem c8_counterexample :
    listTasks (some []) [fileA] = some [⟨none, none, none, fileA⟩] ∧
    listTasks (some []) [fileA] ≠ some [] :=
  ⟨rfl, by decide⟩

/-- **C9** counterexample.  A cached, unexpired session (`lastTouched`
exactly one hour old, not strictly over) whose `listParts` rejects: the
reuse attempt fails (`outcome = threw`), yet `lastTouched` was already
stamped to the current time and persisted — contradicting "updated exactly
when the session is successfully reused". -/
theorem c9_counterexample :
    (getCachedUploadParts s3Throw (2 * oneHourInMs) (some [(fkA, eC9)]) "b" "k" fileA).outcome
      = CachedOutcome.threw ∧
    SMap.get?
      (((getCachedUploadParts s3Throw (2 * oneHourInMs) (some [(fkA, eC9)]) "b" "k"
          fileA).storage).getD [])
      fkA = some { eC9 with lastTouched := some (2 * oneHourInMs) } :=
  ⟨rfl, rfl⟩

/-- Helper: `addTask` in the cache-hit branch, fully reduced. -/
theorem addTask_cached (s3 : S3ClientModel) (now : Nat) (st : ManagerState)
    (input : AddTaskInput) (m : SMap) (e : FileMetadata) (out : ListPartsValue)
    (uid : String) (ps : List S3Part)
    (hs : st.sessions = some m)
    (he : SMap.get? m (getFileKey input.file input.bucket input.key) = some e)
    (hfresh : lastTouchedExpired now e = false)
    (hlp : s3.listParts input.bucket input.key e.uploadId = some out)
    (hu : out.uploadIdField = some uid)
    (hp : out.partsField = some ps) :
    addTask s3 now st input = some
      ⟨⟨uid, input.bucket, input.key, input.file, ps⟩,
       some (SMap.set m (getFileKey input.file input.bucket input.key)
         { e with lastTouched := some now }),
       st.content,
       setTask st.tasks uid ⟨uid, input.bucket, input.key, input.file, ps⟩,
       [(.uploadComplete, .removeKey (getFileKey input.file input.bucket input.key)),
        (.abort, .removeKey (getFileKey input.file input.bucket input.key))],
       (purgeExpiredKeys s3 now oneHourInMs (some m)).abortsRequested,
       [(input.bucket, input.key, e.uploadId)]⟩ := by
  have hcp := getCached_hit_output s3 now m input.bucket input.key input.file e out
    he hfresh hlp
  simp only [addTask, hs, purge_storage_eq, hcp, isListPartsOutput, hu, hp,
    Option.isSome_some, Bool.and_self, if_true, Option.getD_some]

/-- **C1.**  For a cached session whose fingerprint matches, that is
unexpired under the manager's reuse gate, and whose `listParts` succeeds
with a well-formed listing (UploadId echoing the cached uploadId and a Parts
array), `createTask`/`addTask` resolves with a task seeded with exactly the
parts of that listing, registered in the task registry under the cached
uploadId, and the task's part scheduler (modelled from spec §4.4) uploads no
part number present in the listing, for any part size. -/
theorem c1_resume_seeds_cached_parts (s3 : S3ClientModel) (now : Nat)
    (st : ManagerState) (input : AddTaskInput) (m : SMap) (e : FileMetadata)
    (out : ListPartsValue) (ps : List S3Part)
    (hs : st.sessions = some m)
    (he : SMap.get? m (getFileKey input.file input.bucket input.key) = some e)
    (hfresh : lastTouchedExpired now e = false)
    (hlp : s3.listParts input.bucket input.key e.uploadId = some out)
    (hu : out.uploadIdField = some e.uploadId)
    (hp : out.partsField = some ps) :
    ∃ r, createTask s3 now st input = some r ∧
      r.task.uploadId = e.uploadId ∧
      r.task.completedParts = ps ∧
      List.lookup e.uploadId r.tasks = some r.task ∧
      r.listPartsCalls = [(input.bucket, input.key, e.uploadId)] ∧
      ∀ p ∈ ps, ∀ partSize, p.partNumber ∉ r.task.partsToUpload partSize := by
  have h := addTask_cached s3 now st input m e out e.uploadId ps hs he hfresh hlp hu hp
  refine ⟨_, h, rfl, rfl, ?_, rfl, ?_⟩
  · exact lookup_jsAssign_self st.tasks e.uploadId _
  · intro p hpmem partSize
    exact partsToUpload_not_mem _ p hpmem partSize

/-- Witness for C1: the stale-`timeStarted`, fresh-`lastTouched` entry with
a listing of one part; the returned task is seeded with that part, and part
number 1 is excluded from every partition the scheduler would upload. -/
theorem c1_witness :
    lastTouchedExpired (2 * oneHourInMs) eStale = false ∧
    ∃ r, createTask s3Resume (2 * oneHourInMs) ⟨some [(fkA, eStale)], [], []⟩
        ⟨"private", fileA, "b", "k"⟩ = some r ∧
      r.task.uploadId = eStale.uploadId ∧
      r.task.completedParts = [partA] ∧
      List.lookup eStale.uploadId r.tasks = some r.task ∧
      r.listPartsCalls = [("b", "k", eStale.uploadId)] ∧
      ∀ p ∈ [partA], ∀ partSize, p.partNumber ∉ r.task.partsToUpload partSize :=
  ⟨rfl, c1_resume_seeds_cached_parts s3Resume (2 * oneHourInMs)
    ⟨some [(fkA, eStale)], [], []⟩ ⟨"private", fileA, "b", "k"⟩
    [(fkA, eStale)] eStale ⟨some "uid-stale", some [partA]⟩ [partA]
    rfl rfl rfl rfl rfl rfl⟩

/-- Helper: `_initMultiupload` when `createMultipartUpload` resolves. -/
theorem initMultiupload_ok (s3 : S3ClientModel) (now : Nat) (sessions : Option SMap)
    (content : List (String × Source)) (reg : List (String × TaskRecord))
    (input : AddTaskInput) (uid : String)
    (hcreate : s3.createMultipartUpload input.bucket input.key = some uid) :
    initMultiupload s3 now sessions content reg input = some
      (⟨uid, input.bucket, input.key,
          (input.file.name?.bind fun n => List.lookup n content).getD input.file, []⟩,
       addKeyOp sessions (getFileKey input.file input.bucket input.key)
         { uploadId := uid, timeStarted := some now, lastTouched := some now
           bucket := input.bucket, key := input.key, accessLevel := input.accessLevel
           fileName :=
             if ((input.file.name?.bind fun n => List.lookup n content).getD
                 input.file).isFile then
               ((input.file.name?.bind fun n => List.lookup n content).getD
                 input.file).name?
             else none },
       (if (input.file.name?.bind fun n => List.lookup n content).isSome then content
        else storeToIDB content input.file),
       setTask reg uid ⟨uid, input.bucket, input.key,
         (input.file.name?.bind fun n => List.lookup n content).getD input.file, []⟩) := by
  simp only [initMultiupload, hcreate]

/-- Helper: `addTask` in the fallback branch — whenever the cached lookup's
resolution is not a well-formed listing (thrown, nullish, or an output
failing `_isListPartsOutput`), the call reduces to `_initMultiupload`. -/
theorem addTask_fallback (s3 : S3ClientModel) (now : Nat) (st : ManagerState)
    (input : AddTaskInput) (m : SMap) (st1 : Option SMap)
    (calls : List (String × String × String)) (oc : CachedOutcome) (uid : String)
    (hs : st.sessions = some m)
    (hcp : getCachedUploadParts s3 now (some m) input.bucket input.key input.file
        = ⟨st1, calls, oc⟩)
    (hoc : ∀ v, oc = CachedOutcome.output v → isListPartsOutput v = false)
    (hcreate : s3.createMultipartUpload input.bucket input.key = some uid) :
    createTask s3 now st input = some
      ⟨⟨uid, input.bucket, input.key,
          (input.file.name?.bind fun n => List.lookup n st.content).getD input.file, []⟩,
       addKeyOp st1 (getFileKey input.file input.bucket input.key)
         { uploadId := uid, timeStarted := some now, lastTouched := some now
           bucket := input.bucket, key := input.key, accessLevel := input.accessLevel
           fileName :=
             if ((input.file.name?.bind fun n => List.lookup n st.content).getD
                 input.file).isFile then
               ((input.file.name?.bind fun n => List.lookup n st.content).getD
                 input.file).name?
             else none },
       (if (input.file.name?.bind fun n => List.lookup n st.content).isSome then
          st.content
        else storeToIDB st.content input.file),
       setTask st.tasks uid ⟨uid, input.bucket, input.key,
         (input.file.name?.bind fun n => List.lookup n st.content).getD input.file, []⟩,
       [(.uploadComplete, .removeKey (getFileKey input.file input.bucket input.key)),
        (.abort, .removeKey (getFileKey input.file input.bucket input.key))],
       (purgeExpiredKeys s3 now oneHourInMs (some m)).abortsRequested,
       calls⟩ := by
  have hinit := initMultiupload_ok s3 now st1 st.content st.tasks input uid hcreate
  cases oc with
  | threw =>
    simp only [createTask, addTask, hs, purge_storage_eq, hcp, hinit, isListPartsOutput,
      emptyObject, Option.isSome_none, Bool.false_and, Bool.false_eq_true, if_false]
  | nullish =>
    simp only [createTask, addTask, hs, purge_storage_eq, hcp, hinit, isListPartsOutput,
      emptyObject, Option.isSome_none, Bool.false_and, Bool.false_eq_true, if_false]
  | output v =>
    have hv := hoc v rfl
    simp only [createTask, addTask, hs, purge_storage_eq, hcp, hinit, hv,
      Bool.false_eq_true, if_false]

/-- **C4.**  For a cached, unexpired session whose `listParts` call fails —
either rejecting, or resolving with a value that is not a well-formed
listing (fails `_isListPartsOutput`) — the failure is swallowed:
`createTask` still resolves (given the fresh `createMultipartUpload`
resolves, returning `uid`), with a task carrying the fresh uploadId and no
completed parts, and a new session entry persisted under the fingerprint
with `timeStarted` and `lastTouched` set to now. -/
theorem c4_listparts_failure_falls_back (s3 : S3ClientModel) (now : Nat)
    (st : ManagerState) (input : AddTaskInput) (m : SMap) (e : FileMetadata)
    (uid : String)
    (hs : st.sessions = some m)
    (he : SMap.get? m (getFileKey input.file input.bucket input.key) = some e)
    (hfresh : lastTouchedExpired now e = false)
    (hlp : s3.listParts input.bucket input.key e.uploadId = none ∨
      ∃ out, s3.listParts input.bucket input.key e.uploadId = some out ∧
        isListPartsOutput out = false)
    (hcreate : s3.createMultipartUpload input.bucket input.key = some uid) :
    ∃ r, createTask s3 now st input = some r ∧
      r.task.uploadId = uid ∧
      r.task.completedParts = [] ∧
      ∃ meta, SMap.get? (r.sessions.getD [])
          (getFileKey input.file input.bucket input.key) = some meta ∧
        meta.uploadId = uid ∧ meta.timeStarted = some now ∧
        meta.lastTouched = some now := by
  have hmeta : SMap.get?
      ((addKeyOp (some (SMap.set m (getFileKey input.file input.bucket input.key)
          { e with lastTouched := some now }))
        (getFileKey input.file input.bucket input.key)
        { uploadId := uid, timeStarted := some now, lastTouched := some now
          bucket := input.bucket, key := input.key, accessLevel := input.accessLevel
          fileName :=
            if ((input.file.name?.bind fun n => List.lookup n st.content).getD
                input.file).isFile then
              ((input.file.name?.bind fun n => List.lookup n st.content).getD
                input.file).name?
            else none }).getD [])
      (getFileKey input.file input.bucket input.key)
      = some
        { uploadId := uid, timeStarted := some now, lastTouched := some now
          bucket := input.bucket, key := input.key, accessLevel := input.accessLevel
          fileName :=
            if ((input.file.name?.bind fun n => List.lookup n st.content).getD
                input.file).isFile then
              ((input.file.name?.bind fun n => List.lookup n st.content).getD
                input.file).name?
            else none } := by
    simpa [addKeyOp, SMap.get?, SMap.set] using
      lookup_jsAssign_self
        (SMap.set m (getFileKey input.file input.bucket input.key)
          { e with lastTouched := some now })
        (getFileKey input.file input.bucket input.key) _
  obtain hlp | ⟨out, hlp, hbad⟩ := hlp
  · have hcp := getCached_hit_threw s3 now m input.bucket input.key input.file e
      he hfresh hlp
    have haddTask := addTask_fallback s3 now st input m _ _ CachedOutcome.threw uid
      hs hcp (fun v hv => nomatch hv) hcreate
    exact ⟨_, haddTask, rfl, rfl, _, hmeta, rfl, rfl, rfl⟩
  · have hcp := getCached_hit_output s3 now m input.bucket input.key input.file e out
      he hfresh hlp
    have haddTask := addTask_fallback s3 now st input m _ _ (CachedOutcome.output out)
      uid hs hcp (fun v hv => by cases hv; exact hbad) hcreate
    exact ⟨_, haddTask, rfl, rfl, _, hmeta, rfl, rfl, rfl⟩

/-- Oracle whose `listParts` resolves with a malformed value: it has an
`UploadId` property but no `Parts` property, so `_isListPartsOutput`
rejects it. -/
def s3Malformed : S3ClientModel where
  listParts := fun _ _ _ => some ⟨some "uid-9", none⟩
  createMultipartUpload := fun _ _ => some "uid-new"
  abortMultipartUpload := fun _ _ _ => true

/-- Witness for C4, exercising both failure modes against the fresh entry
`eC9`: a rejecting `listParts` (`s3Throw`) and a resolving-but-malformed
listing (`s3Malformed`, no `Parts` property).  In both runs `createTask`
resolves with a fresh task and a new session entry stamped at now. -/
theorem c4_witness :
    lastTouchedExpired (2 * oneHourInMs) eC9 = false ∧
    s3Throw.listParts "b" "k" eC9.uploadId = none ∧
    s3Malformed.listParts "b" "k" eC9.uploadId = some ⟨some "uid-9", none⟩ ∧
    isListPartsOutput ⟨some "uid-9", none⟩ = false ∧
    (∃ r, createTask s3Throw (2 * oneHourInMs) ⟨some [(fkA, eC9)], [], []⟩
        ⟨"private", fileA, "b", "k"⟩ = some r ∧
      r.task.uploadId = "uid-new" ∧
      r.task.completedParts = [] ∧
      ∃ meta, SMap.get? (r.sessions.getD []) (getFileKey fileA "b" "k") = some meta ∧
        meta.uploadId = "uid-new" ∧ meta.timeStarted = some (2 * oneHourInMs) ∧
        meta.lastTouched = some (2 * oneHourInMs)) ∧
    (∃ r, createTask s3Malformed (2 * oneHourInMs) ⟨some [(fkA, eC9)], [], []⟩
        ⟨"private", fileA, "b", "k"⟩ = some r ∧
      r.task.uploadId = "uid-new" ∧
      r.task.completedParts = [] ∧
      ∃ meta, SMap.get? (r.sessions.getD []) (getFileKey fileA "b" "k") = some meta ∧
        meta.uploadId = "uid-new" ∧ meta.timeStarted = some (2 * oneHourInMs) ∧
        meta.lastTouched = some (2 * oneHourInMs)) :=
  ⟨rfl, rfl, rfl, rfl,
   c4_listparts_failure_falls_back s3Throw (2 * oneHourInMs)
     ⟨some [(fkA, eC9)], [], []⟩ ⟨"private", fileA, "b", "k"⟩ [(fkA, eC9)] eC9
     "uid-new" rfl rfl rfl (Or.inl rfl) rfl,
   c4_listparts_failure_falls_back s3Malformed (2 * oneHourInMs)
     ⟨some [(fkA, eC9)], [], []⟩ ⟨"private", fileA, "b", "k"⟩ [(fkA, eC9)] eC9
     "uid-new" rfl rfl rfl (Or.inr ⟨⟨some "uid-9", none⟩, rfl, rfl⟩) rfl⟩

/-- **C6.**  Every resolved `createTask`/`addTask` call has subscribed both
the `UPLOAD_COMPLETE` and the `ABORT` event to a handler that removes the
task's fingerprint from the Session Store, and firing that handler deletes
the fingerprint's entry from the persisted map whatever its prior state. -/
theorem c6_terminal_events_delete_session (s3 : S3ClientModel) (now : Nat)
    (st : ManagerState) (input : AddTaskInput) (r : AddTaskResult)
    (h : createTask s3 now st input = some r) :
    r.handlers =
      [(.uploadComplete, .removeKey (getFileKey input.file input.bucket input.key)),
       (.abort, .removeKey (getFileKey input.file input.bucket input.key))] ∧
    ∀ st' : Option SMap,
      SMap.get?
        ((runHandler (.removeKey (getFileKey input.file input.bucket input.key))
          st').getD [])
        (getFileKey input.file input.bucket input.key) = none := by
  constructor
  · simp only [createTask, addTask] at h
    split at h
    · obtain rfl := Option.some.inj h
      rfl
    · split at h
      · exact absurd h (by simp)
      · obtain rfl := Option.some.inj h
        rfl
  · intro st'
    simpa [runHandler, removeKeyOp, SMap.get?, SMap.erase] using
      lookup_filter_ne (st'.getD []) (getFileKey input.file input.bucket input.key)

/-- Helper: a resolved `_initMultiupload` always hands back a task with no
completed parts. -/
theorem initMultiupload_task_fresh (s3 : S3ClientModel) (now : Nat)
    (sessions : Option SMap) (content : List (String × Source))
    (reg : List (String × TaskRecord)) (input : AddTaskInput) (task : TaskRecord)
    (s' : Option SMap) (c' : List (String × Source)) (g' : List (String × TaskRecord))
    (h : initMultiupload s3 now sessions content reg input = some (task, s', c', g')) :
    task.completedParts = [] := by
  cases hc : s3.createMultipartUpload input.bucket input.key with
  | none => rw [initMultiupload, hc] at h; exact absurd h (by simp)
  | some uid =>
    rw [initMultiupload_ok s3 now sessions content reg input uid hc] at h
    simp only [Option.some.injEq, Prod.mk.injEq] at h
    obtain ⟨h1, -⟩ := h
    rw [← h1]

/-- **C2 (amended).**  Reuse by `createTask` is gated by `lastTouched`, not
`timeStarted`: when the cached entry's `lastTouched` is more than one hour
in the past, `createTask` issues no `listParts` call and any task it
resolves with starts with no completed parts.  The purge step requests a
remote abort for every entry whose `timeStarted` exceeds the ttl but does
NOT remove the entry from the persisted map (an entry with stale
`timeStarted` and fresh `lastTouched` is therefore still reused, as the
counterexample shows). -/
theorem c2_amended_reuse_gated_by_lastTouched (s3 : S3ClientModel) (now : Nat)
    (st : ManagerState) (input : AddTaskInput) (m : SMap) (e : FileMetadata)
    (hs : st.sessions = some m)
    (he : SMap.get? m (getFileKey input.file input.bucket input.key) = some e)
    (hstale : lastTouchedExpired now e = true) :
    (purgeExpiredKeys s3 now oneHourInMs st.sessions).storage = some m ∧
    (timeStartedExpired now oneHourInMs e = true →
      (e.bucket, e.key, e.uploadId) ∈
        (purgeExpiredKeys s3 now oneHourInMs st.sessions).abortsRequested) ∧
    ∀ r, createTask s3 now st input = some r →
      r.listPartsCalls = [] ∧ r.task.completedParts = [] := by
  refine ⟨by rw [hs]; rfl, ?_, ?_⟩
  · intro hexp
    rw [hs]
    have hmem : (getFileKey input.file input.bucket input.key, e) ∈ m :=
      mem_of_lookup_eq_some he
    exact List.mem_map_of_mem _ (List.mem_filter.mpr ⟨hmem, hexp⟩)
  · intro r hr
    have hcp := getCached_stale s3 now m input.bucket input.key input.file e he hstale
    simp only [createTask, addTask, hs, purge_storage_eq, hcp, isListPartsOutput,
      emptyObject, Option.isSome_none, Bool.false_and, Bool.false_eq_true,
      if_false] at hr
    cases hinit : initMultiupload s3 now (some m) st.content st.tasks input with
    | none => rw [hinit] at hr; exact absurd hr (by simp)
    | some q =>
      obtain ⟨task, s', c', g'⟩ := q
      rw [hinit] at hr
      obtain rfl := Option.some.inj hr
      exact ⟨rfl, initMultiupload_task_fresh s3 now (some m) st.content st.tasks
        input task s' c' g' hinit⟩

/-- Witness for the amended C2: entry `eC3` (both stamps 2 h old) at the
input file's fingerprint; the purge keeps it persisted while requesting its
abort, and `createTask` (here resolving a fresh upload) issues no
`listParts` call. -/
theorem c2_amended_witness :
    SMap.get? [(fkA, eC3)] (getFileKey fileA "b" "k") = some eC3 ∧
    lastTouchedExpired (2 * oneHourInMs) eC3 = true ∧
    ((purgeExpiredKeys s3Resume (2 * oneHourInMs) oneHourInMs
        (some [(fkA, eC3)])).storage = some [(fkA, eC3)] ∧
     (timeStartedExpired (2 * oneHourInMs) oneHourInMs eC3 = true →
       (eC3.bucket, eC3.key, eC3.uploadId) ∈
         (purgeExpiredKeys s3Resume (2 * oneHourInMs) oneHourInMs
           (some [(fkA, eC3)])).abortsRequested) ∧
     ∀ r, createTask s3Resume (2 * oneHourInMs) ⟨some [(fkA, eC3)], [], []⟩
         ⟨"private", fileA, "b", "k"⟩ = some r →
       r.listPartsCalls = [] ∧ r.task.completedParts = []) :=
  ⟨rfl, rfl, c2_amended_reuse_gated_by_lastTouched s3Resume (2 * oneHourInMs)
    ⟨some [(fkA, eC3)], [], []⟩ ⟨"private", fileA, "b", "k"⟩ [(fkA, eC3)] eC3
    rfl rfl rfl⟩

/-- **C8 (amended).**  `listTasks` builds exactly one task per Content Store
blob: a blob joined (by strict file-name equality, first match) with a
session entry yields the task carrying that entry's bucket, key and
uploadId; a blob with no matching entry still yields a task with those
fields `undefined`; and every produced task stems from a stored blob, so a
session entry with no matching blob is never reconstructed. -/
theorem c8_amended_one_task_per_blob (m : SMap) (fs : List Source)
    (ts : List ReconTask)
    (h : listTasks (some m) fs = some ts) :
    ts.length = fs.length ∧
    (∀ t ∈ ts, t.file ∈ fs) ∧
    (∀ f ∈ fs, ∀ u, (SMap.values m).find? (fun w => w.fileName == f.name?) = some u →
      (⟨some u.bucket, some u.key, some u.uploadId, f⟩ : ReconTask) ∈ ts) ∧
    (∀ f ∈ fs, (SMap.values m).find? (fun w => w.fileName == f.name?) = none →
      (⟨none, none, none, f⟩ : ReconTask) ∈ ts) := by
  have hts : ts = fs.map (fun f =>
      match (SMap.values m).find? (fun w => w.fileName == f.name?) with
      | some u => (⟨some u.bucket, some u.key, some u.uploadId, f⟩ : ReconTask)
      | none => ⟨none, none, none, f⟩) := by
    unfold listTasks at h
    exact (Option.some.inj h).symm
  subst hts
  refine ⟨List.length_map _ _, ?_, ?_, ?_⟩
  · intro t ht
    obtain ⟨f, hf, rfl⟩ := List.mem_map.mp ht
    cases hfind : (SMap.values m).find? (fun w => w.fileName == f.name?) with
    | none => simp only [hfind]; exact hf
    | some u => simp only [hfind]; exact hf
  · intro f hf u hu
    refine List.mem_map.mpr ⟨f, hf, ?_⟩
    simp only [hu]
  · intro f hf hn
    refine List.mem_map.mpr ⟨f, hf, ?_⟩
    simp only [hn]

/-- Witness for the amended C8: one session entry for `c3.txt`; blobs
`c3.txt` (matched) and `a.txt` (unmatched) each yield one task, the matched
one seeded with the entry's coordinates, the other with `undefined`s. -/
theorem c8_amended_witness :
    listTasks (some [("k8", eC3)]) [Source.file "c3.txt" 5 [] "t", fileA]
      = some [⟨some "b", some "k", some "uid-c3", Source.file "c3.txt" 5 [] "t"⟩,
              ⟨none, none, none, fileA⟩] ∧
    ([(⟨some "b", some "k", some "uid-c3", Source.file "c3.txt" 5 [] "t"⟩ : ReconTask),
      ⟨none, none, none, fileA⟩].length
        = [Source.file "c3.txt" 5 [] "t", fileA].length ∧
     (∀ t ∈ [(⟨some "b", some "k", some "uid-c3",
          Source.file "c3.txt" 5 [] "t"⟩ : ReconTask), ⟨none, none, none, fileA⟩],
        t.file ∈ [Source.file "c3.txt" 5 [] "t", fileA]) ∧
     (∀ f ∈ [Source.file "c3.txt" 5 [] "t", fileA], ∀ u,
        (SMap.values [("k8", eC3)]).find? (fun w => w.fileName == f.name?) = some u →
        (⟨some u.bucket, some u.key, some u.uploadId, f⟩ : ReconTask) ∈
          [(⟨some "b", some "k", some "uid-c3",
            Source.file "c3.txt" 5 [] "t"⟩ : ReconTask), ⟨none, none, none, fileA⟩]) ∧
     (∀ f ∈ [Source.file "c3.txt" 5 [] "t", fileA],
        (SMap.values [("k8", eC3)]).find? (fun w => w.fileName == f.name?) = none →
        (⟨none, none, none, f⟩ : ReconTask) ∈
          [(⟨some "b", some "k", some "uid-c3",
            Source.file "c3.txt" 5 [] "t"⟩ : ReconTask), ⟨none, none, none, fileA⟩])) :=
  ⟨rfl, c8_amended_one_task_per_blob [("k8", eC3)]
    [Source.file "c3.txt" 5 [] "t", fileA]
    [⟨some "b", some "k", some "uid-c3", Source.file "c3.txt" 5 [] "t"⟩,
     ⟨none, none, none, fileA⟩] rfl⟩

/-- **C9 (amended).**  `lastTouched` is stamped to the current time and
persisted whenever the cached entry is found and unexpired — before
`listParts` is attempted, hence also when that call subsequently fails. -/
theorem c9_amended_lastTouched_stamped_on_find (s3 : S3ClientModel) (now : Nat)
    (m : SMap) (bucket key : String) (file : Source) (e : FileMetadata)
    (he : SMap.get? m (getFileKey file bucket key) = some e)
    (hfresh : lastTouchedExpired now e = false) :
    (getCachedUploadParts s3 now (some m) bucket key file).storage
      = some (SMap.set m (getFileKey file bucket key)
          { e with lastTouched := some now }) := by
  cases hlp : s3.listParts bucket key e.uploadId with
  | none => rw [getCached_hit_threw s3 now m bucket key file e he hfresh hlp]
  | some out => rw [getCached_hit_output s3 now m bucket key file e out he hfresh hlp]

/-- Witness for the amended C9: the unexpired `eC9` entry with the rejecting
oracle still gets `lastTouched` stamped and persisted. -/
theorem c9_amended_witness :
    lastTouchedExpired (2 * oneHourInMs) eC9 = false ∧
    (getCachedUploadParts s3Throw (2 * oneHourInMs) (some [(fkA, eC9)]) "b" "k"
        fileA).storage
      = some (SMap.set [(fkA, eC9)] (getFileKey fileA "b" "k")
          { eC9 with lastTouched := some (2 * oneHourInMs) }) :=
  ⟨rfl, c9_amended_lastTouched_stamped_on_find s3Throw (2 * oneHourInMs)
    [(fkA, eC9)] "b" "k" fileA eC9 rfl rfl⟩

/-- Witness for C6 at a concrete resolved `createTask`: the two terminal
subscriptions are registered on the returned task, and firing the handler
against the persisted map deletes the fingerprint's entry. -/
theorem c6_witness :
    (createTask s3Resume (2 * oneHourInMs) ⟨some [(fkA, eStale)], [], []⟩
        ⟨"private", fileA, "b", "k"⟩).map AddTaskResult.handlers
      = some [(.uploadComplete, .removeKey fkA), (.abort, .removeKey fkA)] ∧
    SMap.get? ((runHandler (.removeKey fkA) (some [(fkA, eStale)])).getD []) fkA
      = none := by
  obtain ⟨r, hr⟩ : ∃ r, createTask s3Resume (2 * oneHourInMs)
      ⟨some [(fkA, eStale)], [], []⟩ ⟨"private", fileA, "b", "k"⟩ = some r := ⟨_, rfl⟩
  obtain ⟨h1, h2⟩ := c6_terminal_events_delete_session s3Resume (2 * oneHourInMs)
    ⟨some [(fkA, eStale)], [], []⟩ ⟨"private", fileA, "b", "k"⟩ r hr
  exact ⟨by rw [hr]; exact congrArg some h1, h2 (some [(fkA, eStale)])⟩
